import Mathlib

/-!
# Verification of the attuario-wallet wave-rotation decision engine

Shallow embedding of the decision-and-safety core of the
`bots/wave_rotation` package: pool scoring (`scoring.py`), switch policy
(`scoring.should_switch`), the economic guard (`ops_guard.should_move`),
daily settlement (`executor.settle_day`), the treasury-split ratio
(`strategy.effective_reinvest_ratio`), the kill switch
(`kill_switch.py`), the run lock (`run_lock.py`) and the persistence
discipline of the state files.

Python floats and `Decimal` values are modelled as exact rationals (`ℚ`);
wall-clock timestamps (`time.time()`) are passed explicitly as rational
parameters.  The float operation `x ** (1.0/365)` inside `daily_rate` is
transcendental, so it is kept abstract as a parameter `fpow : ℚ → ℚ`;
every property proved here holds for an arbitrary `fpow`.
-/

namespace AttuarioWallet

/-! ## Pool records (`scoring.py` dictionaries)

A pool is a JSON-like dictionary; the scoring code reads the keys
`apy`, `fee_pct`, `risk_score`, `risk` and `score`, each of which may be
absent (`none`). -/

structure Pool where
  apy : Option ℚ := none
  fee_pct : Option ℚ := none
  risk_score : Option ℚ := none
  risk : Option ℚ := none
  score : Option ℚ := none
deriving DecidableEq

/-- `constants.DAYS_PER_YEAR = 365`. -/
def DAYS_PER_YEAR : ℚ := 365

/-- `scoring.daily_rate`: convert an annual APY to a daily compounded
rate.  `fpow` models the float power `x ↦ x ** (1.0 / 365)`. -/
def daily_rate (fpow : ℚ → ℚ) (apy : ℚ) : ℚ :=
  if apy ≤ -(99 / 100 : ℚ) then 0 else fpow (1 + apy) - 1

/-- `pool.get("apy", 0.0)`. -/
def poolApy (p : Pool) : ℚ := p.apy.getD 0

/-- `scoring._extract_cost`: `max(0.0, float(fee_pct))` when present,
`0.0` otherwise, divided by `DAYS_PER_YEAR`. -/
def extract_cost (p : Pool) : ℚ :=
  (match p.fee_pct with
   | some v => max 0 v
   | none => 0) / DAYS_PER_YEAR

/-- Python's `a or b` for two optional floats followed by `or 0.0`:
`None` and `0.0` are falsy. -/
def pyOrQ (a b : Option ℚ) : ℚ :=
  match a with
  | some v => if v = 0 then (match b with | some w => w | none => 0) else v
  | none => match b with | some w => w | none => 0

/-- `scoring._extract_risk`: `pool.get("risk_score") or pool.get("risk")
or 0.0`, clamped to `[0, 1]`. -/
def extract_risk (p : Pool) : ℚ :=
  max 0 (min 1 (pyOrQ p.risk_score p.risk))

/-- The cost/risk denominator `1.0 + cost * (1.0 - risk)` of
`scoring.normalized_score`. -/
def scoreDenominator (p : Pool) : ℚ :=
  1 + extract_cost p * (1 - extract_risk p)

/-- `scoring.normalized_score`: the pool score following CODEX_RULES. -/
def normalized_score (fpow : ℚ → ℚ) (p : Pool) : ℚ :=
  let rDay := daily_rate fpow (poolApy p)
  if rDay ≤ 0 then rDay
  else if 0 < scoreDenominator p then rDay / scoreDenominator p else 0

/-- `float(pool.get("score", 0.0))`. -/
def poolScore (p : Pool) : ℚ := p.score.getD 0

/-- `scoring.should_switch`.  `now` models `time.time()`; the cooldown
branch mirrors `if cooldown_s and last_switch_ts:` (both truthy, i.e.
non-zero / non-`None`). -/
def should_switch (best current : Option Pool) (minDelta : ℚ)
    (cooldownS : ℤ) (lastSwitchTs : Option ℚ) (now : ℚ) : Bool :=
  match best with
  | none => false
  | some b =>
    match current with
    | none => true
    | some c =>
      let scoreBest := poolScore b
      let scoreCurrent := poolScore c
      if scoreCurrent ≤ 0 then decide (0 < scoreBest)
      else if scoreBest < scoreCurrent * (1 + minDelta) then false
      else
        match lastSwitchTs with
        | some t =>
          if cooldownS ≠ 0 ∧ t ≠ 0 then
            if now - t < (cooldownS : ℚ) then false else true
          else true
        | none => true

/-! ## Economic guard (`ops_guard.should_move`)

Environment-derived `Decimal` parameters are gathered in `EdgeEnv`.
The `(bool, reason)` result is embedded as a decision constructor (one
per rejection site); the reason string itself is logging only.
`gasPrice` is `some` of `w3.eth.gas_price` when a web3 connection is
available, `none` when `w3 is None` (the gas comparison is skipped). -/

structure EdgeEnv where
  minEdgeScore : ℚ := 0
  minEdgeEth : ℚ := 0
  minEdgeUsd : ℚ := 0
  ethPriceUsd : ℚ := 0
  edgeGasMultiplier : ℚ := 1
deriving DecidableEq

inductive MoveDecision
  | approve
  | rejectDelta
  | rejectMinDelta
  | rejectGain
  | rejectMinGainEth
  | rejectMinGainUsd
  | rejectGas
deriving DecidableEq

/-- `ops_guard.should_move`.  `scoreCurrent = none` models the Python
`None` argument (`_as_decimal(None) = 0`). -/
def should_move (capitalEth scoreBest : ℚ) (scoreCurrent : Option ℚ)
    (estMoveGas : ℕ) (gasPrice : Option ℚ) (env : EdgeEnv) : MoveDecision :=
  let delta := scoreBest - scoreCurrent.getD 0
  if delta ≤ 0 then .rejectDelta
  else if delta < env.minEdgeScore then .rejectMinDelta
  else
    let expectedGainEth := capitalEth * delta
    if expectedGainEth ≤ 0 then .rejectGain
    else if expectedGainEth < env.minEdgeEth then .rejectMinGainEth
    else if 0 < env.minEdgeUsd ∧ 0 < env.ethPriceUsd ∧
        expectedGainEth * env.ethPriceUsd < env.minEdgeUsd then
      .rejectMinGainUsd
    else
      match gasPrice with
      | some gp =>
        let gasCostEth := (estMoveGas : ℚ) * gp / 10 ^ 18
        let gasMult :=
          if env.edgeGasMultiplier ≤ 0 then 1 else env.edgeGasMultiplier
        let requiredGain := gasCostEth * gasMult
        if expectedGainEth ≤ requiredGain then .rejectGas else .approve
      | none => .approve

/-- The effective safety multiplier applied to the gas cost
(`EDGE_GAS_MULTIPLIER`, coerced to `1.0` when non-positive). -/
def effectiveGasMultiplier (env : EdgeEnv) : ℚ :=
  if env.edgeGasMultiplier ≤ 0 then 1 else env.edgeGasMultiplier

/-- The estimated execution cost in ETH:
`est_move_gas * gas_price / 10**18`. -/
def gasCostEth (estMoveGas : ℕ) (gp : ℚ) : ℚ :=
  (estMoveGas : ℚ) * gp / 10 ^ 18

/-! ## Settlement (`executor.settle_day`) -/

/-- `executor.settle_day`: `(profit, new_capital, treasury_delta)`. -/
def settle_day (capital rNet reinvestRatio : ℚ) : ℚ × ℚ × ℚ :=
  let profit := capital * rNet
  let capitalNew := capital + reinvestRatio * profit
  let treasuryDelta := if 0 < profit then (1 - reinvestRatio) * profit else 0
  (profit, capitalNew, treasuryDelta)

/-! ## Treasury split (`strategy.effective_reinvest_ratio`) -/

/-- `strategy.effective_reinvest_ratio`. -/
def effective_reinvest_ratio (profitEth baseReinvestRatio fxRate
    minPayoutEur : ℚ) : ℚ :=
  if profitEth ≤ 0 then 1
  else
    let base := max 0 (min 1 baseReinvestRatio)
    let treasuryRatio := 1 - base
    if treasuryRatio ≤ 0 then 1
    else
      let fx := max fxRate 0
      let threshold := max minPayoutEur 0
      let treasuryShareEur := profitEth * treasuryRatio * fx
      if treasuryShareEur ≥ threshold then base else 1

/-! ## Kill switch (`kill_switch.py`)

`KillSwitchState` mirrors the persisted dataclass; the `KillSwitch`
methods become pure state transformers taking `now` (the value of
`time.time()`) explicitly.  `threshold` and `reset_timeout` are
normalised in `__init__` via `max(1, threshold)` / `max(0.0, rt)`. -/

structure KillSwitchState where
  consecutive_errors : ℕ := 0
  last_error_time : Option ℚ := none
  last_error_message : Option String := none
  triggered : Bool := false
  triggered_at : Option ℚ := none
deriving DecidableEq

/-- `KillSwitch.__init__` threshold normalisation: `max(1, threshold)`. -/
def ksInitThreshold (t : ℤ) : ℤ := max 1 t

/-- `KillSwitch.__init__` reset-timeout normalisation: `max(0.0, rt)`. -/
def ksInitResetTimeout (rt : ℚ) : ℚ := max 0 rt

/-- `KillSwitch._should_reset_counter`: elapsed time since the last
error exceeds the reset timeout. -/
def ksShouldResetCounter (resetTimeout : ℚ) (s : KillSwitchState)
    (now : ℚ) : Bool :=
  match s.last_error_time with
  | none => false
  | some t => decide (resetTimeout < now - t)

/-- `KillSwitch.record_error`. -/
def ksRecordError (threshold : ℤ) (resetTimeout : ℚ) (s : KillSwitchState)
    (now : ℚ) (msg : String) : KillSwitchState :=
  let c0 : ℕ := if ksShouldResetCounter resetTimeout s now then 0
                else s.consecutive_errors
  let c : ℕ := c0 + 1
  let trig : Bool := decide (threshold ≤ (c : ℤ)) && !s.triggered
  { consecutive_errors := c
    last_error_time := some now
    last_error_message := some msg
    triggered := s.triggered || trig
    triggered_at := if trig then some now else s.triggered_at }

/-- `KillSwitch.record_success`: resets the error counter but leaves
`triggered` untouched. -/
def ksRecordSuccess (s : KillSwitchState) : KillSwitchState :=
  { s with consecutive_errors := 0
           last_error_time := none
           last_error_message := none }

/-- `KillSwitch.check` raises `RuntimeError` iff `triggered` is set. -/
def ksCheckRaises (s : KillSwitchState) : Bool := s.triggered

/-- `KillSwitch.reset`: replace the state by a fresh one. -/
def ksReset : KillSwitchState := {}

/-- One call to `record_error` (with its wall-clock time and message) or
`record_success`. -/
inductive KSEvent
  | error (now : ℚ) (msg : String)
  | success

/-- Dispatch one recorded event. -/
def ksStep (threshold : ℤ) (resetTimeout : ℚ) (s : KillSwitchState) :
    KSEvent → KillSwitchState
  | .error now msg => ksRecordError threshold resetTimeout s now msg
  | .success => ksRecordSuccess s

/-- Run a `KillSwitch(threshold=thresholdRaw, reset_timeout=rtRaw)`
constructed on a fresh state through a sequence of recorded events. -/
def ksRun (thresholdRaw : ℤ) (rtRaw : ℚ) (es : List KSEvent) :
    KillSwitchState :=
  es.foldl (ksStep (ksInitThreshold thresholdRaw) (ksInitResetTimeout rtRaw)) {}

/-! ## Run lock (`run_lock.py`)

The lock file is modelled by its modification time and contents
(`f"{os.getpid()}\n{time.time()}\n"`); writing at wall-clock time `now`
stamps `mtime = now`. -/

structure LockFile where
  mtime : ℚ
  pid : ℕ
  ts : ℚ
deriving DecidableEq

/-- Result of `RunLock.__enter__`: either `RunLockError` ("busy", with
the offending lock age) or successful acquisition; each carries the
resulting state of the lock file. -/
inductive RunLockOutcome
  | busyErr (lockAge : ℚ) (fs : Option LockFile)
  | acquired (fs : Option LockFile)
deriving DecidableEq

/-- `RunLock.__enter__` on lock-file state `fs` at time `now`. -/
def runLockEnter (fs : Option LockFile) (timeoutSeconds : ℤ) (now : ℚ)
    (pid : ℕ) : RunLockOutcome :=
  match fs with
  | some f =>
    let lockAge := now - f.mtime
    if lockAge < (timeoutSeconds : ℚ) then .busyErr lockAge (some f)
    else .acquired (some { mtime := now, pid := pid, ts := now })
  | none => .acquired (some { mtime := now, pid := pid, ts := now })

/-! ## Persistence discipline (state-file saves)

A file-system program is a list of primitive operations; a crash may
interrupt a `write` after any prefix of its content has reached the
disk, while `rename` is atomic.  `crashOutcomes` collects every content
the observed path can hold at any intermediate moment. -/

inductive FsOp
  | write (path : String) (content : String)
  | rename (src dst : String)
deriving DecidableEq

/-- Effect of one completed operation on the file system (a finite map
from paths to contents). -/
def applyFsOp (fs : String → Option String) : FsOp → (String → Option String)
  | .write p c => fun q => if q = p then some c else fs q
  | .rename a b => fun q => if q = b then fs a else if q = a then none else fs q

/-- All prefixes of a string, shortest first. -/
def stringTakes (c : String) : List String :=
  (List.range (c.length + 1)).map (fun n => c.take n)

/-- Possible contents of path `p` while `op` is in progress: a `write`
to `p` truncates and then appends, so `p` may hold any prefix of the new
content; `rename` is atomic, so `p` still holds its prior content. -/
def midOpOutcomes (fs : String → Option String) (p : String) :
    FsOp → List (Option String)
  | .write q c => if p = q then fs p :: (stringTakes c).map some else [fs p]
  | .rename _ _ => [fs p]

/-- Every content path `p` can hold at any moment during or after the
program, including after a crash that interrupts any single operation. -/
def crashOutcomes (fs : String → Option String) (p : String) :
    List FsOp → List (Option String)
  | [] => [fs p]
  | op :: rest => midOpOutcomes fs p op ++ crashOutcomes (applyFsOp fs op) p rest

/-- Final file system after running the whole program uninterrupted. -/
def runFsProgram (fs : String → Option String) (prog : List FsOp) :
    String → Option String :=
  prog.foldl applyFsOp fs

/-- `KillSwitchState.save`: `path.write_text(json.dumps(data))` — a
single direct write of the serialised document. -/
def killSwitchSaveProgram (path doc : String) : List FsOp :=
  [.write path doc]

/-- `StrategyState.save`: `with path.open("w") as fh: json.dump(payload,
fh)` — truncate and write the serialised document in place. -/
def strategyStateSaveProgram (path doc : String) : List FsOp :=
  [.write path doc]

/-- `executor._save_state`: `STATE_PATH.write_text(json.dumps(state))`. -/
def executorSaveStateProgram (doc : String) : List FsOp :=
  [.write "state.json" doc]

/-- `RunLock.__enter__` lock-record write:
`self.lock_file.write_text(f"{pid}\n{now}\n")`. -/
def runLockWriteProgram (path doc : String) : List FsOp :=
  [.write path doc]

/-- The write-temp-then-rename discipline the spec claims: write the new
document to a distinct temporary path, then atomically rename it over
the target. -/
def atomicTempRenameShape (prog : List FsOp) (target : String) : Prop :=
  ∃ tmp doc, tmp ≠ target ∧ prog = [.write tmp doc, .rename tmp target]

/-- Crash safety of a save program: at every moment the stored record is
either the complete previous value or the complete new value. -/
def crashSafe (prog : List FsOp) (target : String)
    (fs : String → Option String) (newDoc : String) : Prop :=
  ∀ o ∈ crashOutcomes fs target prog, o = fs target ∨ o = some newDoc

/-! ## Theorems -/

/-- **C9** — For every capital, net rate, and reinvest ratio in `[0,1]`,
`settle_day` returns profit `capital * rate`, new capital
`capital + ratio * profit`, and a treasury delta that is never negative
and is exactly zero whenever profit ≤ 0; hence the treasury total never
decreases across a settlement. -/
theorem settle_day_spec (capital rNet ratio : ℚ)
    (h0 : 0 ≤ ratio) (h1 : ratio ≤ 1) :
    (settle_day capital rNet ratio).1 = capital * rNet ∧
    (settle_day capital rNet ratio).2.1 = capital + ratio * (capital * rNet) ∧
    0 ≤ (settle_day capital rNet ratio).2.2 ∧
    (capital * rNet ≤ 0 → (settle_day capital rNet ratio).2.2 = 0) ∧
    (∀ treasury : ℚ, treasury ≤ treasury + (settle_day capital rNet ratio).2.2) := by
  have hdelta : (settle_day capital rNet ratio).2.2
      = if 0 < capital * rNet then (1 - ratio) * (capital * rNet) else 0 := rfl
  have hnonneg : 0 ≤ (settle_day capital rNet ratio).2.2 := by
    rw [hdelta]
    split
    · nlinarith
    · exact le_refl 0
  refine ⟨rfl, rfl, hnonneg, ?_, ?_⟩
  · intro hle
    rw [hdelta]
    split
    · linarith
    · rfl
  · intro treasury
    linarith

/-- Witness for `settle_day_spec` at capital 100, rate 1/20, ratio 1/2
(the spec's own worked example: profit 5, new capital 102.5, treasury
delta 2.5). -/
theorem settle_day_spec_witness :
    (0 ≤ (1/2 : ℚ) ∧ (1/2 : ℚ) ≤ 1) ∧
    ((settle_day 100 (1/20) (1/2)).1 = 100 * (1/20) ∧
     (settle_day 100 (1/20) (1/2)).2.1 = 100 + (1/2) * (100 * (1/20)) ∧
     0 ≤ (settle_day 100 (1/20) (1/2)).2.2 ∧
     (100 * (1/20 : ℚ) ≤ 0 → (settle_day 100 (1/20) (1/2)).2.2 = 0) ∧
     (∀ treasury : ℚ, treasury ≤ treasury + (settle_day 100 (1/20) (1/2)).2.2)) :=
  ⟨⟨by norm_num, by norm_num⟩,
   settle_day_spec 100 (1/20) (1/2) (by norm_num) (by norm_num)⟩

/-- **C7** — For every profit, base reinvest ratio in `[0,1]`, nonnegative
exchange rate and nonnegative minimum-payout threshold: the effective
reinvestment ratio is 1 when profit ≤ 0; it is 1 when profit > 0 and the
treasury-bound share `profit * (1 - base) * fx` is below the threshold;
and it equals the configured base ratio when that share is at or above
the threshold. -/
theorem effective_reinvest_ratio_spec (profit base fx thr : ℚ)
    (hb0 : 0 ≤ base) (hb1 : base ≤ 1) (hfx : 0 ≤ fx) (hthr : 0 ≤ thr) :
    (profit ≤ 0 → effective_reinvest_ratio profit base fx thr = 1) ∧
    (0 < profit → profit * (1 - base) * fx < thr →
      effective_reinvest_ratio profit base fx thr = 1) ∧
    (0 < profit → thr ≤ profit * (1 - base) * fx →
      effective_reinvest_ratio profit base fx thr = base) := by
  have hbase : max 0 (min 1 base) = base := by
    rw [min_eq_right hb1, max_eq_right hb0]
  have hfx' : max fx 0 = fx := max_eq_left hfx
  have hthr' : max thr 0 = thr := max_eq_left hthr
  refine ⟨?_, ?_, ?_⟩
  · intro hp
    unfold effective_reinvest_ratio
    rw [if_pos hp]
  · intro hp hshare
    unfold effective_reinvest_ratio
    rw [if_neg (not_le.mpr hp), hbase, hfx', hthr']
    show (if (1 : ℚ) - base ≤ 0 then 1
      else if thr ≤ profit * (1 - base) * fx then base else 1) = 1
    split_ifs with h1 h2
    · rfl
    · exact absurd h2 (not_le.mpr hshare)
    · rfl
  · intro hp hshare
    unfold effective_reinvest_ratio
    rw [if_neg (not_le.mpr hp), hbase, hfx', hthr']
    show (if (1 : ℚ) - base ≤ 0 then 1
      else if thr ≤ profit * (1 - base) * fx then base else 1) = base
    split_ifs with h1
    · have hb : base = 1 := by linarith
      rw [hb]
    · rfl

/-- Witness for `effective_reinvest_ratio_spec` at profit 10, base 1/2,
fx 3000, threshold 1/2. -/
theorem effective_reinvest_ratio_spec_witness :
    (0 ≤ (1/2 : ℚ) ∧ (1/2 : ℚ) ≤ 1 ∧ 0 ≤ (3000 : ℚ) ∧ 0 ≤ (1/2 : ℚ)) ∧
    ((10 : ℚ) ≤ 0 → effective_reinvest_ratio 10 (1/2) 3000 (1/2) = 1) ∧
    (0 < (10 : ℚ) → (10 : ℚ) * (1 - 1/2) * 3000 < 1/2 →
      effective_reinvest_ratio 10 (1/2) 3000 (1/2) = 1) ∧
    (0 < (10 : ℚ) → (1/2 : ℚ) ≤ 10 * (1 - 1/2) * 3000 →
      effective_reinvest_ratio 10 (1/2) 3000 (1/2) = 1/2) :=
  ⟨⟨by norm_num, by norm_num, by norm_num, by norm_num⟩,
   effective_reinvest_ratio_spec 10 (1/2) 3000 (1/2)
     (by norm_num) (by norm_num) (by norm_num) (by norm_num)⟩

/-- **C2** — RunLock acquisition: if a lock record exists and its age is
strictly below the staleness threshold, acquisition fails with a busy
error and the existing record is left unchanged; if the record's age is
at or above the threshold, or no record exists, acquisition succeeds and
overwrites the record with the current holder's identity and timestamp. -/
theorem runLockEnter_spec (fs : Option LockFile) (timeout : ℤ) (now : ℚ)
    (pid : ℕ) :
    (∀ f, fs = some f → now - f.mtime < (timeout : ℚ) →
      runLockEnter fs timeout now pid = .busyErr (now - f.mtime) (some f)) ∧
    (∀ f, fs = some f → (timeout : ℚ) ≤ now - f.mtime →
      runLockEnter fs timeout now pid =
        .acquired (some { mtime := now, pid := pid, ts := now })) ∧
    (fs = none →
      runLockEnter fs timeout now pid =
        .acquired (some { mtime := now, pid := pid, ts := now })) := by
  refine ⟨?_, ?_, ?_⟩
  · intro f hf hage
    subst hf
    show (if now - f.mtime < (timeout : ℚ) then
        RunLockOutcome.busyErr (now - f.mtime) (some f)
      else .acquired (some { mtime := now, pid := pid, ts := now })) =
      RunLockOutcome.busyErr (now - f.mtime) (some f)
    rw [if_pos hage]
  · intro f hf hage
    subst hf
    show (if now - f.mtime < (timeout : ℚ) then
        RunLockOutcome.busyErr (now - f.mtime) (some f)
      else .acquired (some { mtime := now, pid := pid, ts := now })) =
      RunLockOutcome.acquired (some { mtime := now, pid := pid, ts := now })
    rw [if_neg (not_lt.mpr hage)]
  · intro hf
    subst hf
    rfl

/-- Witness for `runLockEnter_spec`: a fresh lock written at time 100,
probed at time 150 with a 3600-second staleness threshold, is busy; the
same lock probed at time 4000 is reclaimed. -/
theorem runLockEnter_spec_witness :
    (some (⟨100, 7, 100⟩ : LockFile) = some (⟨100, 7, 100⟩ : LockFile) ∧
      (150 : ℚ) - (100 : ℚ) < ((3600 : ℤ) : ℚ)) ∧
    runLockEnter (some ⟨100, 7, 100⟩) 3600 150 9 =
      .busyErr ((150 : ℚ) - 100) (some ⟨100, 7, 100⟩) :=
  ⟨⟨rfl, by norm_num⟩,
   (runLockEnter_spec (some ⟨100, 7, 100⟩) 3600 150 9).1
     ⟨100, 7, 100⟩ rfl (by norm_num)⟩

/-- **C6** — Whenever a live gas price is available, `should_move`
approves only if the expected gain (capital times the score delta)
strictly exceeds the estimated execution cost
(`est_move_gas * gas_price / 10**18`) multiplied by the safety
multiplier; it never approves a move failing this strict comparison. -/
theorem should_move_gas_margin (capital scoreBest : ℚ) (scoreCurrent : Option ℚ)
    (estGas : ℕ) (gp : ℚ) (env : EdgeEnv)
    (happrove : should_move capital scoreBest scoreCurrent estGas (some gp) env
      = .approve) :
    gasCostEth estGas gp * effectiveGasMultiplier env <
      capital * (scoreBest - scoreCurrent.getD 0) := by
  unfold should_move at happrove
  unfold gasCostEth effectiveGasMultiplier
  dsimp only at happrove
  split_ifs at happrove with h1 h2 h3 h4 h5 h6 h7 <;>
    first
      | exact absurd happrove (by decide)
      | (split_ifs <;> linarith)

/-- Witness for `should_move_gas_margin`: capital 1, best score 1,
current score 0, zero gas price — the guard approves and the gain 1
strictly exceeds the zero cost. -/
theorem should_move_gas_margin_witness :
    should_move 1 1 (some 0) 280000 (some 0) {} = .approve ∧
    gasCostEth 280000 0 * effectiveGasMultiplier {} <
      (1 : ℚ) * ((1 : ℚ) - (some (0 : ℚ)).getD 0) :=
  have happ : should_move 1 1 (some 0) 280000 (some 0) {} = .approve := by
    simp only [should_move]
    norm_num
  ⟨happ, should_move_gas_margin 1 1 (some 0) 280000 0 {} happ⟩

/-- **C4, counterexample** — The claim says `should_switch` with a
candidate and no current position returns true precisely when the
candidate's score is positive; but the code returns true unconditionally
when `current is None`, even for a candidate whose score is −1. -/
theorem should_switch_no_current_counterexample :
    should_switch (some { score := some (-1) }) none (1/100) 0 none 0 = true ∧
    ¬ (0 < poolScore { score := some (-1) }) :=
  ⟨rfl, by decide⟩

/-- **C4, amended** — When best is non-null and current is null,
`should_switch` returns true unconditionally (the best score is not
consulted); and when current is non-null with score ≤ 0, it returns true
if and only if the best candidate's score is positive. -/
theorem should_switch_no_current_amended (b : Pool) (minDelta : ℚ)
    (cooldownS : ℤ) (lastSwitchTs : Option ℚ) (now : ℚ) :
    should_switch (some b) none minDelta cooldownS lastSwitchTs now = true ∧
    (∀ c, poolScore c ≤ 0 →
      (should_switch (some b) (some c) minDelta cooldownS lastSwitchTs now = true
        ↔ 0 < poolScore b)) := by
  constructor
  · rfl
  · intro c hc
    show (if poolScore c ≤ 0 then decide (0 < poolScore b)
      else if poolScore b < poolScore c * (1 + minDelta) then false
      else
        match lastSwitchTs with
        | some t =>
          if cooldownS ≠ 0 ∧ t ≠ 0 then
            if now - t < (cooldownS : ℚ) then false else true
          else true
        | none => true) = true ↔ 0 < poolScore b
    rw [if_pos hc]
    exact decide_eq_true_iff

/-- Witness for `should_switch_no_current_amended` at a best pool of
score 2 against a current pool of score −3. -/
theorem should_switch_no_current_amended_witness :
    should_switch (some { score := some 2 }) none (1/100) 0 none 0 = true ∧
    (poolScore { score := some (-3) } ≤ 0 ∧
      (should_switch (some { score := some 2 })
          (some { score := some (-3) }) (1/100) 0 none 0 = true
        ↔ 0 < poolScore { score := some 2 })) :=
  ⟨(should_switch_no_current_amended { score := some 2 } (1/100) 0 none 0).1,
   by decide,
   (should_switch_no_current_amended { score := some 2 } (1/100) 0 none 0).2
     { score := some (-3) } (by decide)⟩

/-- **C5, counterexample** — The claim says a call within a positive
cooldown window of the last switch always returns false, including when
there is no current position; but with no current position the code
returns true without consulting the cooldown (here: cooldown 100 s, last
switch at 50, call at 60). -/
theorem should_switch_cooldown_counterexample :
    should_switch (some { score := some 1 }) none (1/100) 100 (some 50) 60
      = true ∧
    (0 : ℤ) < 100 ∧ (60 : ℚ) - 50 < ((100 : ℤ) : ℚ) :=
  ⟨rfl, by decide, by norm_num⟩

/-- **C5, amended** — The cooldown applies only on the hysteresis path:
when current is non-null with positive score and the best score meets
the relative-improvement threshold, a nonzero cooldown together with a
non-null, nonzero last-switch timestamp within the window forces false;
but with no current position, or with a non-positive current score and a
positive best score, the call returns true regardless of the cooldown. -/
theorem should_switch_cooldown_amended (b c : Pool) (minDelta : ℚ)
    (cooldownS : ℤ) (t now : ℚ)
    (hcd : cooldownS ≠ 0) (ht : t ≠ 0) (hwin : now - t < (cooldownS : ℚ)) :
    (0 < poolScore c → poolScore c * (1 + minDelta) ≤ poolScore b →
      should_switch (some b) (some c) minDelta cooldownS (some t) now = false) ∧
    should_switch (some b) none minDelta cooldownS (some t) now = true ∧
    (poolScore c ≤ 0 → 0 < poolScore b →
      should_switch (some b) (some c) minDelta cooldownS (some t) now = true) := by
  refine ⟨?_, rfl, ?_⟩
  · intro hc hbar
    show (if poolScore c ≤ 0 then decide (0 < poolScore b)
      else if poolScore b < poolScore c * (1 + minDelta) then false
      else
        if cooldownS ≠ 0 ∧ t ≠ 0 then
          if now - t < (cooldownS : ℚ) then false else true
        else true) = false
    rw [if_neg (not_le.mpr hc), if_neg (not_lt.mpr hbar),
      if_pos ⟨hcd, ht⟩, if_pos hwin]
  · intro hc hb
    show (if poolScore c ≤ 0 then decide (0 < poolScore b)
      else if poolScore b < poolScore c * (1 + minDelta) then false
      else
        if cooldownS ≠ 0 ∧ t ≠ 0 then
          if now - t < (cooldownS : ℚ) then false else true
        else true) = true
    rw [if_pos hc, decide_eq_true_eq]
    exact hb

/-- Witness for `should_switch_cooldown_amended`: best score 2, current
score 1, `min_delta` 1/100, cooldown 100 s, last switch at 50, call at
60 — suppressed on the hysteresis path. -/
theorem should_switch_cooldown_amended_witness :
    ((100 : ℤ) ≠ 0 ∧ (50 : ℚ) ≠ 0 ∧ (60 : ℚ) - 50 < ((100 : ℤ) : ℚ)) ∧
    (0 < poolScore { score := some 1 } →
      poolScore { score := some 1 } * (1 + 1/100) ≤ poolScore { score := some 2 } →
      should_switch (some { score := some 2 }) (some { score := some 1 })
        (1/100) 100 (some 50) 60 = false) :=
  ⟨⟨by decide, by decide, by norm_num⟩,
   (should_switch_cooldown_amended { score := some 2 } { score := some 1 }
     (1/100) 100 50 60 (by decide) (by decide) (by norm_num)).1⟩

/-! Helper lemmas about the score components, shared by the
`normalized_score` theorems. -/

lemma extract_cost_nonneg (p : Pool) : 0 ≤ extract_cost p := by
  unfold extract_cost DAYS_PER_YEAR
  cases p.fee_pct with
  | none => norm_num
  | some v =>
    have h : (0 : ℚ) ≤ max 0 v := le_max_left 0 v
    positivity

lemma extract_risk_nonneg (p : Pool) : 0 ≤ extract_risk p :=
  le_max_left 0 _

lemma extract_risk_le_one (p : Pool) : extract_risk p ≤ 1 :=
  max_le (by norm_num) (min_le_left 1 _)

lemma scoreDenominator_ge_one (p : Pool) : 1 ≤ scoreDenominator p := by
  unfold scoreDenominator
  have h1 := extract_cost_nonneg p
  have h2 := extract_risk_le_one p
  nlinarith

lemma normalized_score_of_nonpos (fpow : ℚ → ℚ) (p : Pool)
    (hr : daily_rate fpow (poolApy p) ≤ 0) :
    normalized_score fpow p = daily_rate fpow (poolApy p) := by
  unfold normalized_score
  rw [if_pos hr]

lemma normalized_score_of_pos (fpow : ℚ → ℚ) (p : Pool)
    (hr : 0 < daily_rate fpow (poolApy p)) :
    normalized_score fpow p
      = daily_rate fpow (poolApy p) / scoreDenominator p := by
  have hdpos : (0 : ℚ) < scoreDenominator p :=
    lt_of_lt_of_le one_pos (scoreDenominator_ge_one p)
  unfold normalized_score
  rw [if_neg (not_le.mpr hr), if_pos hdpos]

/-- **C8** — For every pool whose daily rate is positive, the net score
equals that rate divided by `1 + fee_rate_per_cycle * (1 - risk_score)`;
that denominator is always at least 1, so the guard for a non-positive
denominator can never fire, and the claim's clause "whenever the
denominator is not positive, the net score equals the raw rate" holds
vacuously. -/
theorem normalized_score_positive_rate (fpow : ℚ → ℚ) (p : Pool)
    (hr : 0 < daily_rate fpow (poolApy p)) :
    normalized_score fpow p
      = daily_rate fpow (poolApy p) / scoreDenominator p ∧
    1 ≤ scoreDenominator p ∧
    (scoreDenominator p ≤ 0 →
      normalized_score fpow p = daily_rate fpow (poolApy p)) := by
  have hd := scoreDenominator_ge_one p
  exact ⟨normalized_score_of_pos fpow p hr, hd,
    fun h => absurd h (not_le.mpr (lt_of_lt_of_le one_pos hd))⟩

/-- Witness for `normalized_score_positive_rate`: `fpow` the identity
and a pool with APY 1 (daily rate 1, no fee, no risk). -/
theorem normalized_score_positive_rate_witness :
    0 < daily_rate (fun x => x) (poolApy { apy := some 1 }) ∧
    (normalized_score (fun x => x) { apy := some 1 }
        = daily_rate (fun x => x) (poolApy { apy := some 1 })
          / scoreDenominator { apy := some 1 } ∧
      1 ≤ scoreDenominator { apy := some 1 } ∧
      (scoreDenominator { apy := some 1 } ≤ 0 →
        normalized_score (fun x => x) { apy := some 1 }
          = daily_rate (fun x => x) (poolApy { apy := some 1 }))) :=
  have hr : 0 < daily_rate (fun x => x) (poolApy { apy := some 1 }) := by
    unfold daily_rate poolApy
    norm_num
  ⟨hr, normalized_score_positive_rate (fun x => x) { apy := some 1 } hr⟩

/-- **C10** — `normalized_score` never exceeds the daily rate of the
pool's APY: when the daily rate is non-positive the score is that rate
unchanged; when it is positive the cost/risk denominator is at least 1,
so the adjustment can only shrink the score; and the score is positive
exactly when the daily rate is positive. -/
theorem normalized_score_le_daily_rate (fpow : ℚ → ℚ) (p : Pool) :
    normalized_score fpow p ≤ daily_rate fpow (poolApy p) ∧
    (daily_rate fpow (poolApy p) ≤ 0 →
      normalized_score fpow p = daily_rate fpow (poolApy p)) ∧
    (0 < daily_rate fpow (poolApy p) → 1 ≤ scoreDenominator p) ∧
    (0 < normalized_score fpow p ↔ 0 < daily_rate fpow (poolApy p)) := by
  have hd := scoreDenominator_ge_one p
  have hdpos : (0 : ℚ) < scoreDenominator p := lt_of_lt_of_le one_pos hd
  by_cases hr : daily_rate fpow (poolApy p) ≤ 0
  · rw [normalized_score_of_nonpos fpow p hr]
    exact ⟨le_refl _, fun _ => rfl, fun _ => hd, Iff.rfl⟩
  · push_neg at hr
    rw [normalized_score_of_pos fpow p hr]
    refine ⟨div_le_self hr.le hd, fun h => absurd h (not_le.mpr hr),
      fun _ => hd, ⟨fun _ => hr, fun _ => div_pos hr hdpos⟩⟩

/-- Witness for `normalized_score_le_daily_rate` (the inner implications
discharged): `fpow` the identity, a pool with APY 1, fee 365 and risk
1/2, where the daily rate is 1, the denominator is 3/2, and the score
2/3 is positive and below the daily rate. -/
theorem normalized_score_le_daily_rate_witness :
    (normalized_score (fun x => x)
        { apy := some 1, fee_pct := some 365, risk_score := some (1/2) }
      ≤ daily_rate (fun x => x)
          (poolApy { apy := some 1, fee_pct := some 365, risk_score := some (1/2) })) ∧
    (0 < daily_rate (fun x => x)
        (poolApy { apy := some 1, fee_pct := some 365, risk_score := some (1/2) }) →
      1 ≤ scoreDenominator
        { apy := some 1, fee_pct := some 365, risk_score := some (1/2) }) ∧
    (0 < normalized_score (fun x => x)
        { apy := some 1, fee_pct := some 365, risk_score := some (1/2) }
      ↔ 0 < daily_rate (fun x => x)
          (poolApy { apy := some 1, fee_pct := some 365, risk_score := some (1/2) })) :=
  have h := normalized_score_le_daily_rate (fun x => x)
    { apy := some 1, fee_pct := some 365, risk_score := some (1/2) }
  ⟨h.1, h.2.2.1, h.2.2.2⟩

/-! Helper lemmas for the kill-switch state machine. -/

/-- A state that is not triggered keeps its error streak strictly below
the (normalised) threshold; this is preserved by every recorded event. -/
lemma ksStep_inv (thr : ℤ) (hthr : 1 ≤ thr) (rt : ℚ) (s : KillSwitchState)
    (e : KSEvent)
    (h : s.triggered = false → (s.consecutive_errors : ℤ) < thr) :
    (ksStep thr rt s e).triggered = false →
      ((ksStep thr rt s e).consecutive_errors : ℤ) < thr := by
  cases e with
  | success =>
    intro htrig
    simp only [ksStep, ksRecordSuccess] at htrig ⊢
    omega
  | error now msg =>
    intro htrig
    simp only [ksStep, ksRecordError, Bool.or_eq_false_iff,
      Bool.and_eq_false_iff, Bool.not_eq_false', decide_eq_false_iff_not,
      not_le] at htrig ⊢
    rcases htrig with ⟨hs, hc⟩
    rcases hc with hc | hc
    · exact hc
    · rw [hs] at hc
      cases hc

/-- Triggering is sticky: once `triggered` is set, no recorded event
clears it. -/
lemma ksStep_sticky (thr : ℤ) (rt : ℚ) (s : KillSwitchState) (e : KSEvent)
    (h : s.triggered = true) :
    (ksStep thr rt s e).triggered = true := by
  cases e with
  | success => exact h
  | error now msg =>
    simp only [ksStep, ksRecordError, h, Bool.true_or]

/-- Every state reached from the fresh state satisfies the streak
invariant. -/
lemma ksRun_inv (N : ℤ) (rt : ℚ) (es : List KSEvent) :
    (ksRun N rt es).triggered = false →
      ((ksRun N rt es).consecutive_errors : ℤ) < ksInitThreshold N := by
  have hthr : 1 ≤ ksInitThreshold N := le_max_left 1 N
  unfold ksRun
  generalize hs : ({} : KillSwitchState) = s0
  have hinv : s0.triggered = false → (s0.consecutive_errors : ℤ) < ksInitThreshold N := by
    rw [← hs]
    intro _
    simpa using hthr
  clear hs
  induction es generalizing s0 with
  | nil => exact hinv
  | cons e rest ih =>
    exact ih _ (ksStep_inv (ksInitThreshold N) hthr (ksInitResetTimeout rt) s0 e hinv)

/-- A not-yet-triggered state that trips on the next recorded error does
so with its streak exactly at the threshold. -/
lemma ksRecordError_exact (thr : ℤ) (hthr : 1 ≤ thr) (rt : ℚ)
    (s : KillSwitchState) (now : ℚ) (msg : String)
    (hs : s.triggered = false)
    (hinv : (s.consecutive_errors : ℤ) < thr)
    (htrig : (ksRecordError thr rt s now msg).triggered = true) :
    ((ksRecordError thr rt s now msg).consecutive_errors : ℤ) = thr := by
  simp only [ksRecordError, hs, Bool.or_eq_true, Bool.and_eq_true,
    Bool.not_eq_eq_eq_not, Bool.not_false, decide_eq_true_eq] at htrig ⊢
  rcases htrig with hc | ⟨hc, -⟩
  · cases hc
  · have hle : (if ksShouldResetCounter rt s now then (0 : ℕ)
        else s.consecutive_errors) ≤ s.consecutive_errors := by
      split <;> omega
    omega

/-- **C1** — Starting from a fresh `KillSwitch` with configured threshold
`N ≥ 1`: a reachable untriggered state has its consecutive-error streak
strictly below `N` and `check()` does not raise there; a recorded error
that trips an untriggered reachable state does so with the streak
exactly at `N` (never earlier); a recorded success never trips; once
triggered, `check()` raises and both `record_error` and `record_success`
leave the switch triggered; an explicit `reset()` returns to a state
where `check()` does not raise. -/
theorem killswitch_threshold_sticky (N : ℤ) (hN : 1 ≤ N) (rt : ℚ)
    (es : List KSEvent) :
    ((ksRun N rt es).triggered = false →
      ((ksRun N rt es).consecutive_errors : ℤ) < N ∧
      ksCheckRaises (ksRun N rt es) = false) ∧
    ((ksRun N rt es).triggered = false → ∀ now msg,
      (ksStep (ksInitThreshold N) (ksInitResetTimeout rt) (ksRun N rt es)
        (.error now msg)).triggered = true →
      ((ksStep (ksInitThreshold N) (ksInitResetTimeout rt) (ksRun N rt es)
        (.error now msg)).consecutive_errors : ℤ) = N) ∧
    ((ksRun N rt es).triggered = false →
      (ksStep (ksInitThreshold N) (ksInitResetTimeout rt) (ksRun N rt es)
        .success).triggered = false) ∧
    ((ksRun N rt es).triggered = true →
      ksCheckRaises (ksRun N rt es) = true ∧
      ∀ e, (ksStep (ksInitThreshold N) (ksInitResetTimeout rt) (ksRun N rt es)
        e).triggered = true) ∧
    ksCheckRaises ksReset = false := by
  have hthr : ksInitThreshold N = N := max_eq_right hN
  have hinv := ksRun_inv N rt es
  rw [hthr] at hinv
  refine ⟨?_, ?_, ?_, ?_, rfl⟩
  · intro hfalse
    exact ⟨hinv hfalse, hfalse⟩
  · intro hfalse now msg htrig
    have := ksRecordError_exact (ksInitThreshold N) (le_max_left 1 N)
      (ksInitResetTimeout rt) (ksRun N rt es) now msg hfalse
      (by rw [hthr]; exact hinv hfalse) htrig
    rw [hthr] at this
    exact this
  · intro hfalse
    simpa [ksStep, ksRecordSuccess] using hfalse
  · intro htrue
    exact ⟨htrue, fun e =>
      ksStep_sticky (ksInitThreshold N) (ksInitResetTimeout rt)
        (ksRun N rt es) e htrue⟩

/-- Witness for `killswitch_threshold_sticky`: threshold 2, no timeout
reset, after a single recorded error at time 0. -/
theorem killswitch_threshold_sticky_witness :
    (1 : ℤ) ≤ 2 ∧
    (((ksRun 2 0 [.error 0 "boom"]).triggered = false →
      ((ksRun 2 0 [.error 0 "boom"]).consecutive_errors : ℤ) < 2 ∧
      ksCheckRaises (ksRun 2 0 [.error 0 "boom"]) = false) ∧
    ((ksRun 2 0 [.error 0 "boom"]).triggered = false → ∀ now msg,
      (ksStep (ksInitThreshold 2) (ksInitResetTimeout 0) (ksRun 2 0 [.error 0 "boom"])
        (.error now msg)).triggered = true →
      ((ksStep (ksInitThreshold 2) (ksInitResetTimeout 0) (ksRun 2 0 [.error 0 "boom"])
        (.error now msg)).consecutive_errors : ℤ) = 2) ∧
    ((ksRun 2 0 [.error 0 "boom"]).triggered = false →
      (ksStep (ksInitThreshold 2) (ksInitResetTimeout 0) (ksRun 2 0 [.error 0 "boom"])
        .success).triggered = false) ∧
    ((ksRun 2 0 [.error 0 "boom"]).triggered = true →
      ksCheckRaises (ksRun 2 0 [.error 0 "boom"]) = true ∧
      ∀ e, (ksStep (ksInitThreshold 2) (ksInitResetTimeout 0) (ksRun 2 0 [.error 0 "boom"])
        e).triggered = true) ∧
    ksCheckRaises ksReset = false) :=
  ⟨by decide, killswitch_threshold_sticky 2 (by decide) 0 [.error 0 "boom"]⟩

/-! Helper lemmas for the persistence model. -/

/-- A single direct write admits, as crash outcomes of its target, the
prior content, every proper prefix of the new content, and the new
content itself. -/
lemma crashOutcomes_single_write (fs : String → Option String) (p c : String) :
    crashOutcomes fs p [FsOp.write p c]
      = fs p :: ((stringTakes c).map some ++ [some c]) := by
  simp [crashOutcomes, midOpOutcomes, applyFsOp]

/-- **C3, counterexample** — `KillSwitchState.save` is a plain
`write_text`, not a write-temp-then-rename: the program has no rename
step, and a crash midway through the write can leave the file holding
`"NEW"`, a strict prefix of the new document `"NEWDOC"` that equals
neither the previous record `"OLD"` nor the new one. -/
theorem save_not_atomic_counterexample :
    ¬ atomicTempRenameShape (killSwitchSaveProgram "ks_state" "NEWDOC")
        "ks_state" ∧
    ¬ crashSafe (killSwitchSaveProgram "ks_state" "NEWDOC") "ks_state"
        (fun q => if q = "ks_state" then some "OLD" else none) "NEWDOC" := by
  constructor
  · rintro ⟨tmp, doc, hne, heq⟩
    simp [killSwitchSaveProgram] at heq
  · intro h
    have hmem : (some "NEW" : Option String) ∈
        crashOutcomes (fun q => if q = "ks_state" then some "OLD" else none)
          "ks_state" (killSwitchSaveProgram "ks_state" "NEWDOC") := by
      rw [killSwitchSaveProgram, crashOutcomes_single_write]
      decide
    have := h (some "NEW") hmem
    simp at this

/-- **C3, amended** — Each persisted record (`KillSwitchState`,
`StrategyState`, the executor's `state.json`, the run-lock record) is
saved by a single direct whole-file write with no temporary file and no
rename; an uninterrupted save leaves exactly the new document, but a
crash mid-save can leave any prefix of it, so the stored record is not
guaranteed to be the complete previous or the complete new value. -/
theorem save_single_write (path doc : String) (fs : String → Option String) :
    (¬ atomicTempRenameShape (killSwitchSaveProgram path doc) path ∧
     ¬ atomicTempRenameShape (strategyStateSaveProgram path doc) path ∧
     ¬ atomicTempRenameShape (executorSaveStateProgram doc) "state.json" ∧
     ¬ atomicTempRenameShape (runLockWriteProgram path doc) path) ∧
    (∀ o ∈ crashOutcomes fs path (killSwitchSaveProgram path doc),
      o = fs path ∨ o = some doc ∨ ∃ n, o = some (String.take doc n)) ∧
    runFsProgram fs (killSwitchSaveProgram path doc) path = some doc ∧
    (∀ o ∈ crashOutcomes fs path (strategyStateSaveProgram path doc),
      o = fs path ∨ o = some doc ∨ ∃ n, o = some (String.take doc n)) ∧
    runFsProgram fs (strategyStateSaveProgram path doc) path = some doc ∧
    (∀ o ∈ crashOutcomes fs "state.json" (executorSaveStateProgram doc),
      o = fs "state.json" ∨ o = some doc ∨ ∃ n, o = some (String.take doc n)) ∧
    runFsProgram fs (executorSaveStateProgram doc) "state.json" = some doc ∧
    (∀ o ∈ crashOutcomes fs path (runLockWriteProgram path doc),
      o = fs path ∨ o = some doc ∨ ∃ n, o = some (String.take doc n)) ∧
    runFsProgram fs (runLockWriteProgram path doc) path = some doc := by
  have hchar : ∀ (g : String → Option String) (p : String),
      ∀ o ∈ crashOutcomes g p [FsOp.write p doc],
        o = g p ∨ o = some doc ∨ ∃ n, o = some (String.take doc n) := by
    intro g p o ho
    rw [crashOutcomes_single_write] at ho
    rcases List.mem_cons.mp ho with h0 | h1
    · exact Or.inl h0
    · rcases List.mem_append.mp h1 with h2 | h3
      · rcases List.mem_map.mp h2 with ⟨s, hs, rfl⟩
        rcases List.mem_map.mp hs with ⟨n, _, rfl⟩
        exact Or.inr (Or.inr ⟨n, rfl⟩)
      · rcases List.mem_singleton.mp h3 with rfl
        exact Or.inr (Or.inl rfl)
  have hfinal : ∀ (g : String → Option String) (p : String),
      runFsProgram g [FsOp.write p doc] p = some doc := by
    intro g p
    simp [runFsProgram, applyFsOp]
  have hshape : ∀ (p c tgt : String), ¬ atomicTempRenameShape [FsOp.write p c] tgt := by
    rintro p c tgt ⟨tmp, d, hne, heq⟩
    simp at heq
  exact ⟨⟨hshape path doc path, hshape path doc path,
      hshape "state.json" doc "state.json", hshape path doc path⟩,
    hchar fs path, hfinal fs path,
    hchar fs path, hfinal fs path,
    hchar fs "state.json", hfinal fs "state.json",
    hchar fs path, hfinal fs path⟩

/-- Witness for `save_single_write`: the crash-outcome characterisation
applied to the outcome `"NE"` of an interrupted write of `"NEW"` over an
empty file system. -/
theorem save_single_write_witness :
    ((some "NE" : Option String) ∈
      crashOutcomes (fun _ => none) "p" (killSwitchSaveProgram "p" "NEW")) ∧
    ((some "NE" : Option String) = (fun _ : String => (none : Option String)) "p" ∨
      (some "NE" : Option String) = some "NEW" ∨
      ∃ n, (some "NE" : Option String) = some (String.take "NEW" n)) :=
  have hmem : (some "NE" : Option String) ∈
      crashOutcomes (fun _ => none) "p" (killSwitchSaveProgram "p" "NEW") := by
    rw [killSwitchSaveProgram, crashOutcomes_single_write]
    decide
  ⟨hmem,
   (save_single_write "p" "NEW" (fun _ => none)).2.1 (some "NE") hmem⟩

end AttuarioWallet
